import Mathlib

/-!
Verification of the referral/commission ledger of a course-sales backend.

The data model mirrors the Mongoose schemas (`User`, `Payment`, `Commission`,
`Payout`, `PayoutRequest`); the operations are shallow embeddings of the
controller functions `handleWebhook` (the `payment_intent.succeeded` branch),
`manualPaymentConfirm`, `processRefund`, `updateCommissionStatus`,
`processBulkPayout`, `processManualPayout`, `processBankTransfer`,
`requestPayout` and `createPayoutRequest`.  Monetary amounts are modelled as
rationals; Mongo collections as Lean lists; document ids as naturals drawn
from a `nextId` counter.
-/

/-- Bank details of an agent.  The source checks presence of
`accountNumber`/`bankName` (modelled by the surrounding `Option`) and the
`isVerified` flag. -/
structure BankDetails where
  isVerified : Bool
deriving Repr, DecidableEq

/-- Subset of the `User` schema relevant to the ledger. -/
structure User where
  id : Nat
  role : String
  referredBy : Option Nat
  commissionRate : ℚ
  isActiveAgent : Bool
  totalCommission : ℚ
  totalReferrals : Nat
  referrals : List Nat
  coursesEnrolled : List Nat
  coursesPurchased : List Nat
  bankDetails : Option BankDetails
deriving Repr, DecidableEq

/-- The `Payment` schema. -/
structure Payment where
  id : Nat
  userId : Nat
  courseId : Nat
  amount : ℚ
  transactionId : String
  status : String
  referralAgent : Option Nat
  commissionAmount : Option ℚ
  commissionStatus : String
  refundReason : Option String
deriving Repr, DecidableEq

/-- The `Commission` schema (union of the fields used by the controllers;
`ctype` embeds the schema field `type`, which is `commission` for earned
commissions and `payout` for the payout records `processBankTransfer`
inserts into the same collection). -/
structure Commission where
  id : Nat
  agent : Nat
  referral : Option Nat
  payment : Option Nat
  amount : ℚ
  status : String
  commissionRate : ℚ := 1 / 10
  originalAmount : Option ℚ := none
  ctype : String := "commission"
  payoutMethod : Option String := none
  payoutNotes : Option String := none
  adminNotes : Option String := none
  transferReference : Option String := none
  payoutId : Option Nat := none
deriving Repr, DecidableEq

/-- The `Payout` schema. -/
structure Payout where
  id : Nat
  agent : Nat
  amount : ℚ
  status : String
  paymentMethod : String
  notes : String
  commissionIds : List Nat
  totalCommissionsPaid : ℚ
deriving Repr, DecidableEq

/-- The `PayoutRequest` schema (status defaults to `pending`). -/
structure PayoutRequest where
  id : Nat
  agent : Nat
  amount : ℚ
  status : String
  commissionIds : List Nat
deriving Repr, DecidableEq

/-- The persistent store: one list per Mongo collection, plus a counter
for fresh document ids.  Courses are represented by their ids only. -/
structure DB where
  users : List User
  courses : List Nat
  payments : List Payment
  commissions : List Commission
  payouts : List Payout
  payoutRequests : List PayoutRequest
  nextId : Nat
deriving Repr, DecidableEq

/-- HTTP-style response: success flag, status code, message, and the
optional `totalAmount` payload returned by `processBulkPayout`. -/
structure Resp where
  success : Bool
  code : Nat
  message : String
  total : Option ℚ
deriving Repr, DecidableEq

/-- A success response (`createSuccessResponse` / `res.json`). -/
def okResp (msg : String) : Resp := ⟨true, 200, msg, none⟩

/-- An error response (`createErrorResponse` with a status code). -/
def errResp (code : Nat) (msg : String) : Resp := ⟨false, code, msg, none⟩

/-- `User.findById`. -/
def findUser (l : List User) (uid : Nat) : Option User :=
  l.find? (fun u => u.id == uid)

/-- Point update of the user document with the given id. -/
def updateUser (l : List User) (uid : Nat) (f : User → User) : List User :=
  l.map (fun u => if u.id == uid then f u else u)

/-- `Payment.findOne with transactionId` — the idempotency lookup. -/
def findPaymentByTx (l : List Payment) (tx : String) : Option Payment :=
  l.find? (fun p => p.transactionId == tx)

/-- `Payment.findById`. -/
def findPayment (l : List Payment) (pid : Nat) : Option Payment :=
  l.find? (fun p => p.id == pid)

/-- Point update of the payment document with the given id. -/
def updatePayment (l : List Payment) (pid : Nat) (f : Payment → Payment) : List Payment :=
  l.map (fun p => if p.id == pid then f p else p)

/-- `Commission.findById`. -/
def findCommission (l : List Commission) (cid : Nat) : Option Commission :=
  l.find? (fun c => c.id == cid)

/-- Point update of the commission document with the given id. -/
def updateCommission (l : List Commission) (cid : Nat) (f : Commission → Commission) :
    List Commission :=
  l.map (fun c => if c.id == cid then f c else c)

/-- `Commission.findOne with payment` — lookup of the commission attached
to a payment. -/
def findCommissionByPayment (l : List Commission) (pid : Nat) : Option Commission :=
  l.find? (fun c => c.payment == some pid)

/-- `Commission.find with agent and status pending` — the pending
commissions of one agent, in storage order. -/
def pendingFor (l : List Commission) (agentId : Nat) : List Commission :=
  l.filter (fun c => c.agent == agentId && c.status == "pending")

/-- Sum of the `amount` fields (the `reduce` in the controllers). -/
def sumAmounts (l : List Commission) : ℚ :=
  (l.map Commission.amount).sum

/-- Enrollment step of payment processing: add the course to
`coursesPurchased` and `coursesEnrolled`, each guarded by a membership
check. -/
def enroll (user : User) (cid : Nat) : User :=
  let u1 :=
    if cid ∈ user.coursesPurchased then user
    else { user with coursesPurchased := user.coursesPurchased ++ [cid] }
  if cid ∈ u1.coursesEnrolled then u1
  else { u1 with coursesEnrolled := u1.coursesEnrolled ++ [cid] }

/-- First commission-creation block of `handleWebhook` (also the only one
of `manualPaymentConfirm`): if the purchaser has a `referredBy` pointing
to a user with role `agent`, create a pending Commission with amount
`payment.amount * commissionRate / 100` and mirror `commissionStatus`
onto the payment.  Runs on the database state reached after the payment
was saved. -/
def createCommissionBlock (db : DB) (user : User) (uid pid : Nat) (payAmount : ℚ) : DB :=
  match user.referredBy with
  | none => db
  | some agentId =>
    match findUser db.users agentId with
    | none => db
    | some referralAgent =>
      if referralAgent.role = "agent" then
        let commissionAmount := payAmount * referralAgent.commissionRate / 100
        let c : Commission :=
          { id := db.nextId, agent := agentId, referral := some uid, payment := some pid,
            amount := commissionAmount, status := "pending",
            commissionRate := referralAgent.commissionRate / 100,
            originalAmount := some payAmount, ctype := "commission" }
        let db1 := { db with commissions := db.commissions ++ [c], nextId := db.nextId + 1 }
        { db1 with
          payments := updatePayment db1.payments pid
            (fun p => { p with commissionStatus := "pending" }) }
      else db

/-- Second commission-creation block of `handleWebhook` ("Handle referral
commission if applicable"): requires the referrer to be an active agent,
falls back to a rate of 10 when `commissionRate` is falsy (`rate || 10`
in the source, so a rate of 0 is replaced by 10), creates a second
pending Commission, mirrors the amount onto the payment, and increments
the denormalized agent counters. -/
def referrerStatsBlock (db : DB) (user : User) (uid pid : Nat) (amountCents : ℚ) : DB :=
  match user.referredBy with
  | none => db
  | some agentId =>
    match findUser db.users agentId with
    | none => db
    | some referrer =>
      if referrer.role = "agent" ∧ referrer.isActiveAgent = true then
        let commissionPercentage := if referrer.commissionRate = 0 then 10 else referrer.commissionRate
        let commissionAmount := (amountCents / 100) * (commissionPercentage / 100)
        let c : Commission :=
          { id := db.nextId, agent := agentId, referral := some uid, payment := some pid,
            amount := commissionAmount, status := "pending",
            originalAmount := some (amountCents / 100), ctype := "commission" }
        let db1 := { db with commissions := db.commissions ++ [c], nextId := db.nextId + 1 }
        let db2 := { db1 with
          payments := updatePayment db1.payments pid
            (fun p => { p with commissionAmount := some commissionAmount,
                               referralAgent := some agentId }) }
        { db2 with
          users := updateUser db2.users agentId (fun a =>
            { a with totalCommission := a.totalCommission + commissionAmount,
                     totalReferrals := a.totalReferrals + 1,
                     referrals := if uid ∈ a.referrals then a.referrals
                                  else a.referrals ++ [uid] }) }
      else db

/-- The `payment_intent.succeeded` branch of `handleWebhook`: resolve user
and course, then the idempotency check on `transactionId`, then the
already-enrolled check, then payment creation, both commission blocks and
enrollment, in source order.  `amountCents` is `paymentIntent.amount`. -/
def handleWebhookSucceeded (db : DB) (tx : String) (amountCents : ℚ) (uid cid : Nat) :
    DB × Resp :=
  match findUser db.users uid with
  | none => (db, errResp 400 "User not found")
  | some user =>
    if cid ∈ db.courses then
      if (findPaymentByTx db.payments tx).isSome then
        (db, okResp "received")
      else if cid ∈ user.coursesEnrolled then
        (db, okResp "received")
      else
        let pid := db.nextId
        let payAmount := amountCents / 100
        let payment : Payment :=
          { id := pid, userId := uid, courseId := cid, amount := payAmount,
            transactionId := tx, status := "completed",
            referralAgent := user.referredBy, commissionAmount := none,
            commissionStatus := "pending", refundReason := none }
        let db1 : DB := { db with payments := db.payments ++ [payment], nextId := pid + 1 }
        let db2 := createCommissionBlock db1 user uid pid payAmount
        let db3 := { db2 with users := updateUser db2.users uid (fun _ => enroll user cid) }
        (referrerStatsBlock db3 user uid pid amountCents, okResp "received")
    else (db, errResp 400 "Course not found")

/-- `manualPaymentConfirm`: requires the retrieved payment intent to have
status `succeeded`; a duplicate `transactionId` is answered with a 400
error ("Payment already processed"); otherwise payment creation, the
single commission block and enrollment. -/
def manualPaymentConfirm (db : DB) (piStatus tx : String) (amountCents : ℚ) (uid cid : Nat) :
    DB × Resp :=
  if piStatus = "succeeded" then
    match findUser db.users uid with
    | none => (db, errResp 404 "User or course not found")
    | some user =>
      if cid ∈ db.courses then
        if (findPaymentByTx db.payments tx).isSome then
          (db, errResp 400 "Payment already processed")
        else
          let pid := db.nextId
          let payAmount := amountCents / 100
          let payment : Payment :=
            { id := pid, userId := uid, courseId := cid, amount := payAmount,
              transactionId := tx, status := "completed",
              referralAgent := user.referredBy, commissionAmount := none,
              commissionStatus := "pending", refundReason := none }
          let db1 : DB := { db with payments := db.payments ++ [payment], nextId := pid + 1 }
          let db2 := createCommissionBlock db1 user uid pid payAmount
          let db3 := { db2 with users := updateUser db2.users uid (fun _ => enroll user cid) }
          (db3, okResp "Payment confirmed successfully")
      else (db, errResp 404 "User or course not found")
  else (db, errResp 400 "Payment not succeeded")

/-- `processRefund`: requires the payment to be `completed`; the Stripe
refund call (modelled by `providerOk`) happens before any state change
and a failure aborts the whole operation; then the payment is marked
refunded and a still-pending commission is cancelled with the agent
`totalCommission` decremented by the commission amount. -/
def processRefund (db : DB) (pid : Nat) (reason : String) (providerOk : Bool) : DB × Resp :=
  match findPayment db.payments pid with
  | none => (db, errResp 404 "Payment not found")
  | some payment =>
    if payment.status = "completed" then
      if providerOk then
        let db1 := { db with
          payments := updatePayment db.payments pid
            (fun _ => { payment with status := "refunded", refundReason := some reason }) }
        match payment.referralAgent with
        | none => (db1, okResp "Refund processed successfully")
        | some agentId =>
          match findCommissionByPayment db1.commissions pid with
          | none => (db1, okResp "Refund processed successfully")
          | some commission =>
            if commission.status = "pending" then
              let db2 := { db1 with
                commissions := updateCommission db1.commissions commission.id
                  (fun _ => { commission with status := "cancelled",
                                              payoutNotes := some ("Refunded: " ++ reason) }) }
              let db3 := { db2 with
                users := updateUser db2.users agentId
                  (fun a => { a with totalCommission := a.totalCommission - commission.amount }) }
              (db3, okResp "Refund processed successfully")
            else (db1, okResp "Refund processed successfully")
      else (db, errResp 500 "Server error")
    else (db, errResp 400 "Payment is not completed")

/-- `updateCommissionStatus`: `findByIdAndUpdate` applies the requested
status unconditionally (no check of the current status); `payoutMethod`
and `payoutNotes` are set when provided. -/
def updateCommissionStatus (db : DB) (cid : Nat) (status : String)
    (payoutMethod payoutNotes : Option String) : DB × Resp :=
  match findCommission db.commissions cid with
  | none => (db, errResp 404 "Commission not found")
  | some _ =>
    let db1 := { db with
      commissions := updateCommission db.commissions cid (fun c =>
        { c with status := status,
                 payoutMethod := (match payoutMethod with
                                  | some m => some m
                                  | none => c.payoutMethod),
                 payoutNotes := (match payoutNotes with
                                 | some n => some n
                                 | none => c.payoutNotes) }) }
    (db1, okResp "Commission status updated successfully")

/-- `processBulkPayout`: the read filters the given ids to the pending
ones (used for the emptiness check and `totalAmount`), but the
`updateMany` filters on `_id` only, so every listed commission is set to
`paid` regardless of its current status. -/
def processBulkPayout (db : DB) (commissionIds : List Nat) (payoutMethod payoutNotes : String) :
    DB × Resp :=
  let commissions := db.commissions.filter
    (fun c => commissionIds.contains c.id && c.status == "pending")
  if commissions.isEmpty then
    (db, errResp 400 "No pending commissions found")
  else
    let totalAmount := sumAmounts commissions
    let db1 := { db with
      commissions := db.commissions.map (fun c =>
        if commissionIds.contains c.id then
          { c with status := "paid", payoutMethod := some payoutMethod,
                   payoutNotes := some payoutNotes }
        else c) }
    (db1, ⟨true, 200, "Bulk payout processed successfully", some totalAmount⟩)

/-- The greedy selection loop of `processManualPayout`: take a commission
while `remainingAmount >= commission.amount`, else `break`. -/
def greedySelect : List Commission → ℚ → List Commission
  | [], _ => []
  | c :: rest, remainingAmount =>
    if c.amount ≤ remainingAmount then c :: greedySelect rest (remainingAmount - c.amount)
    else []

/-- Mutation part of `processManualPayout` (runs once all checks passed):
mark the greedily selected commissions paid, create the `Payout` record
with `amount = totalCommissionsPaid`, and back-link `payoutId`. -/
def doManualPayout (db : DB) (agentId : Nat) (amount : ℚ) (paymentMethod notes : String) : DB :=
  let commissionsToPay := greedySelect (pendingFor db.commissions agentId) amount
  let selIds := commissionsToPay.map Commission.id
  let totalCommissionsPaid := sumAmounts commissionsToPay
  let db1 := { db with
    commissions := db.commissions.map (fun c : Commission =>
      if selIds.contains c.id then { c with status := "paid", adminNotes := some notes }
      else c) }
  let payout : Payout :=
    { id := db1.nextId, agent := agentId, amount := totalCommissionsPaid,
      status := "completed", paymentMethod := paymentMethod, notes := notes,
      commissionIds := selIds, totalCommissionsPaid := totalCommissionsPaid }
  let db2 := { db1 with payouts := db1.payouts ++ [payout], nextId := db1.nextId + 1 }
  { db2 with
    commissions := db2.commissions.map (fun c : Commission =>
      if selIds.contains c.id then { c with payoutId := some payout.id } else c) }

/-- `processManualPayout`: validation chain in source order (required
fields, agent lookup and role, bank details, verification for bank
transfers, non-empty pending commissions, requested amount within the
pending total), then the greedy payout mutation. -/
def processManualPayout (db : DB) (agentId : Nat) (amount : ℚ) (paymentMethod notes : String) :
    DB × Resp :=
  if amount = 0 ∨ paymentMethod = "" then
    (db, errResp 400 "Agent ID, amount, and payment method are required")
  else
    match findUser db.users agentId with
    | none => (db, errResp 404 "Agent not found")
    | some agent =>
      if agent.role = "agent" then
        match agent.bankDetails with
        | none => (db, errResp 400 "Agent has not provided bank details yet")
        | some bd =>
          if paymentMethod = "bank_transfer" ∧ bd.isVerified = false then
            (db, errResp 400 "Agent bank details must be verified before processing bank transfer")
          else
            if (pendingFor db.commissions agentId).isEmpty then
              (db, errResp 400 "No pending commissions found for this agent")
            else
              if sumAmounts (pendingFor db.commissions agentId) < amount then
                (db, errResp 400 "Amount exceeds pending commission")
              else
                (doManualPayout db agentId amount paymentMethod notes,
                 okResp "Payout processed successfully")
      else (db, errResp 404 "Agent not found")

/-- `processBankTransfer`: same validation shape (verification always
required), then ALL pending commissions of the agent are set to `paid`
(the requested amount only gates the precondition), and a Commission
record of type `payout` with the requested amount is appended — no
`Payout` document is created. -/
def processBankTransfer (db : DB) (agentId : Nat) (amount : ℚ) (notes transferReference : String) :
    DB × Resp :=
  if amount = 0 then
    (db, errResp 400 "Agent ID and amount are required")
  else
    match findUser db.users agentId with
    | none => (db, errResp 404 "Agent not found")
    | some agent =>
      if agent.role = "agent" then
        match agent.bankDetails with
        | none => (db, errResp 400 "Agent has not provided bank details yet")
        | some bd =>
          if bd.isVerified then
            if (pendingFor db.commissions agentId).isEmpty then
              (db, errResp 400 "No pending commissions found for this agent")
            else
              if sumAmounts (pendingFor db.commissions agentId) < amount then
                (db, errResp 400 "Amount exceeds pending commission")
              else
                let ids := (pendingFor db.commissions agentId).map Commission.id
                let db1 := { db with
                  commissions := db.commissions.map (fun c : Commission =>
                    if ids.contains c.id then
                      { c with status := "paid", payoutMethod := some "bank_transfer",
                               adminNotes := some notes,
                               transferReference := some transferReference }
                    else c) }
                let payoutRecord : Commission :=
                  { id := db1.nextId, agent := agentId, referral := none, payment := none,
                    amount := amount, status := "paid", originalAmount := none,
                    payoutMethod := some "bank_transfer", adminNotes := some notes,
                    transferReference := some transferReference, ctype := "payout" }
                ({ db1 with commissions := db1.commissions ++ [payoutRecord],
                            nextId := db1.nextId + 1 },
                 okResp "Bank transfer processed successfully")
          else
            (db, errResp 400 "Agent bank details must be verified before processing bank transfer")
      else (db, errResp 404 "Agent not found")

/-- The update loop of `requestPayout`: walk the fetched commissions and
mark one paid whenever `totalUpdated + amount` stays within the requested
amount (no break — the loop continues past a skipped commission). -/
def selectUpTo : List Commission → ℚ → ℚ → List Nat
  | [], _, _ => []
  | c :: rest, totalUpdated, amount =>
    if totalUpdated + c.amount ≤ amount then
      c.id :: selectUpTo rest (totalUpdated + c.amount) amount
    else selectUpTo rest totalUpdated amount

/-- The agent-facing `requestPayout` endpoint: despite its name it marks
commissions paid immediately — it validates the amount against the
pending total, fetches the first `ceil(amount / 10)` pending commissions
and pays those that fit within the requested amount.  No request record
is created. -/
def requestPayout (db : DB) (uid : Nat) (amount : ℚ) (payoutMethod : String) : DB × Resp :=
  match findUser db.users uid with
  | none => (db, errResp 403 "Agent access required")
  | some user =>
    if user.role = "agent" then
      if user.isActiveAgent then
        if sumAmounts (pendingFor db.commissions uid) < amount then
          (db, errResp 400 "Insufficient pending commission")
        else
          let commissionsToUpdate := (pendingFor db.commissions uid).take (amount / 10).ceil.toNat
          let ids := selectUpTo commissionsToUpdate 0 amount
          let db1 := { db with
            commissions := db.commissions.map (fun c =>
              if ids.contains c.id then
                { c with status := "paid", payoutMethod := some payoutMethod }
              else c) }
          (db1, okResp "Payout request submitted successfully")
      else (db, errResp 400 "Agent account not approved")
    else (db, errResp 403 "Agent access required")

/-- `createPayoutRequest`: checks bank details are on file and that any
given commission ids all belong to this agent and are pending, then only
appends a `PayoutRequest` document with status `pending` — no commission
is touched. -/
def createPayoutRequest (db : DB) (agentId : Nat) (amount : ℚ) (commissionIds : List Nat) :
    DB × Resp :=
  match findUser db.users agentId with
  | none => (db, errResp 500 "Server error")
  | some agent =>
    match agent.bankDetails with
    | none => (db, errResp 400 "Please add your bank details before requesting a payout")
    | some _ =>
      if commissionIds ≠ [] ∧
         (db.commissions.filter (fun c =>
            commissionIds.contains c.id && c.agent == agentId && c.status == "pending")).length
           ≠ commissionIds.length then
        (db, errResp 400 "Invalid commission IDs or commissions already paid")
      else
        let pr : PayoutRequest :=
          { id := db.nextId, agent := agentId, amount := amount, status := "pending",
            commissionIds := commissionIds }
        ({ db with payoutRequests := db.payoutRequests ++ [pr], nextId := db.nextId + 1 },
         okResp "Payout request created successfully")

/-! Concrete database states used to evaluate the operations. -/

/-- An approved agent with a 10 percent rate and verified bank details. -/
def agentA : User :=
  { id := 1, role := "agent", referredBy := none, commissionRate := 10, isActiveAgent := true,
    totalCommission := 0, totalReferrals := 0, referrals := [], coursesEnrolled := [],
    coursesPurchased := [], bankDetails := some ⟨true⟩ }

/-- A purchaser referred by `agentA`. -/
def userB : User :=
  { id := 2, role := "user", referredBy := some 1, commissionRate := 10, isActiveAgent := false,
    totalCommission := 0, totalReferrals := 0, referrals := [], coursesEnrolled := [],
    coursesPurchased := [], bankDetails := none }

/-- Fresh store: referred purchaser, active referring agent, one course,
no payment yet. -/
def dbC1 : DB :=
  { users := [agentA, userB], courses := [100], payments := [], commissions := [],
    payouts := [], payoutRequests := [], nextId := 10 }

/-- A payment that was already recorded for transaction `tx_1`. -/
def paymentDup : Payment :=
  { id := 3, userId := 2, courseId := 100, amount := 100, transactionId := "tx_1",
    status := "completed", referralAgent := some 1, commissionAmount := none,
    commissionStatus := "pending", refundReason := none }

/-- Store state after `tx_1` was processed once: redelivering the same
event must be a no-op. -/
def dbC2 : DB :=
  { users := [agentA, { userB with coursesEnrolled := [100], coursesPurchased := [100] }],
    courses := [100], payments := [paymentDup], commissions := [], payouts := [],
    payoutRequests := [], nextId := 10 }

/-- A pending commission worth 10. -/
def commPend : Commission :=
  { id := 1, agent := 1, referral := some 2, payment := some 4, amount := 10,
    status := "pending", originalAmount := some 100 }

/-- A cancelled commission worth 5. -/
def commCanc : Commission :=
  { id := 2, agent := 1, referral := some 2, payment := some 5, amount := 5,
    status := "cancelled", originalAmount := some 50 }

/-- Store with one pending and one cancelled commission. -/
def dbC3 : DB :=
  { users := [agentA], courses := [], payments := [], commissions := [commPend, commCanc],
    payouts := [], payoutRequests := [], nextId := 20 }

/-- Store with an active agent owning a single pending commission of 10. -/
def dbC4 : DB :=
  { users := [agentA],
    courses := [], payments := [],
    commissions := [{ id := 5, agent := 1, referral := some 2, payment := some 4,
                      amount := 10, status := "pending", originalAmount := some 100 }],
    payouts := [], payoutRequests := [], nextId := 20 }

/-- Store with a single already-paid commission. -/
def dbC5 : DB :=
  { users := [agentA], courses := [], payments := [],
    commissions := [{ id := 7, agent := 1, referral := some 2, payment := some 4,
                      amount := 10, status := "paid", originalAmount := some 100 }],
    payouts := [], payoutRequests := [], nextId := 20 }

/-- Store for manual payouts: verified agent, one pending commission of 10. -/
def dbC6 : DB :=
  { users := [agentA], courses := [], payments := [],
    commissions := [{ id := 3, agent := 1, referral := some 2, payment := some 4,
                      amount := 10, status := "pending", originalAmount := some 100 }],
    payouts := [], payoutRequests := [], nextId := 20 }

/-- Store for manual payouts: verified agent with pending commissions of
10, 10 and 5 (the payout scenario of the specification). -/
def dbC6w : DB :=
  { users := [agentA], courses := [], payments := [],
    commissions := [{ id := 3, agent := 1, referral := some 2, payment := some 11,
                      amount := 10, status := "pending", originalAmount := some 100 },
                    { id := 4, agent := 1, referral := some 2, payment := some 12,
                      amount := 10, status := "pending", originalAmount := some 100 },
                    { id := 5, agent := 1, referral := some 2, payment := some 13,
                      amount := 5, status := "pending", originalAmount := some 50 }],
    payouts := [], payoutRequests := [], nextId := 20 }

/-- A completed payment with a referral agent, refundable. -/
def paymentC7 : Payment :=
  { id := 4, userId := 2, courseId := 100, amount := 100, transactionId := "tx_7",
    status := "completed", referralAgent := some 1, commissionAmount := some 10,
    commissionStatus := "pending", refundReason := none }

/-- The pending commission attached to `paymentC7`. -/
def commC7 : Commission :=
  { id := 5, agent := 1, referral := some 2, payment := some 4, amount := 10,
    status := "pending", originalAmount := some 100 }

/-- Refund scenario: agent with `totalCommission = 10`, completed payment,
attached pending commission. -/
def dbC7 : DB :=
  { users := [{ agentA with totalCommission := 10 }], courses := [100],
    payments := [paymentC7], commissions := [commC7], payouts := [],
    payoutRequests := [], nextId := 20 }

/-- An active agent whose `commissionRate` is 0. -/
def agentZeroRate : User :=
  { id := 1, role := "agent", referredBy := none, commissionRate := 0, isActiveAgent := true,
    totalCommission := 0, totalReferrals := 0, referrals := [], coursesEnrolled := [],
    coursesPurchased := [], bankDetails := some ⟨true⟩ }

/-- Fresh store where the referring agent has rate 0. -/
def dbC8 : DB :=
  { users := [agentZeroRate, userB], courses := [100], payments := [], commissions := [],
    payouts := [], payoutRequests := [], nextId := 10 }

/-- Store with a payment that is still `pending` (not refundable). -/
def dbC9 : DB :=
  { users := [agentA], courses := [100],
    payments := [{ id := 4, userId := 2, courseId := 100, amount := 100,
                   transactionId := "tx_9", status := "pending", referralAgent := none,
                   commissionAmount := none, commissionStatus := "pending",
                   refundReason := none }],
    commissions := [], payouts := [], payoutRequests := [], nextId := 20 }

/-- Bank-transfer scenario: verified agent with pending commissions of 10
and 5. -/
def dbC10 : DB :=
  { users := [agentA], courses := [], payments := [],
    commissions := [{ id := 3, agent := 1, referral := some 2, payment := some 11,
                      amount := 10, status := "pending", originalAmount := some 100 },
                    { id := 4, agent := 1, referral := some 2, payment := some 12,
                      amount := 5, status := "pending", originalAmount := some 50 }],
    payouts := [], payoutRequests := [], nextId := 20 }

/-! Helper lemmas about list lookups, point updates and sums. -/

/-- `find?` commutes with a map that does not change the predicate value
of any element. -/
theorem find?_map_of_pred_invariant {α : Type} (l : List α) (p : α → Bool) (g : α → α)
    (hg : ∀ x, p (g x) = p x) :
    (l.map g).find? p = (l.find? p).map g := by
  induction l with
  | nil => rfl
  | cons x xs ih =>
    simp only [List.map_cons, List.find?]
    rw [hg x]
    cases hx : p x with
    | true => rfl
    | false => simpa using ih

/-- Replacing (by key) the element that `find?` returned, with a
replacement that still satisfies the predicate, makes `find?` return the
replacement — provided keys are unique in the list. -/
theorem find?_map_replace_nodup {α : Type} (key : α → Nat) (l : List α) (p : α → Bool)
    (c newC : α) (hnd : (l.map key).Nodup) (hfind : l.find? p = some c)
    (hp : p newC = true) :
    (l.map (fun x => if key x == key c then newC else x)).find? p = some newC := by
  induction l with
  | nil => simp at hfind
  | cons x xs ih =>
    simp only [List.map_cons, List.nodup_cons] at hnd
    obtain ⟨hx_notin, hnd_xs⟩ := hnd
    simp only [List.find?] at hfind
    cases hx : p x with
    | true =>
      rw [hx] at hfind
      injection hfind with hxc
      subst hxc
      simp only [List.map_cons, beq_self_eq_true, if_true, List.find?, hp]
    | false =>
      rw [hx] at hfind
      have hcmem : c ∈ xs := List.mem_of_find?_eq_some hfind
      have hkey : key x ≠ key c := by
        intro h
        exact hx_notin (h ▸ List.mem_map_of_mem key hcmem)
      simp only [List.map_cons]
      rw [if_neg (by simpa using hkey)]
      simp only [List.find?, hx]
      exact ih hnd_xs hfind

/-- A guarded point update at key `a` does not change what `find?` at a
different key `b` returns, provided the update keeps the key of the
elements it touches. -/
theorem find?_map_guard_ne {α : Type} (key : α → Nat) (l : List α) (a b : Nat) (f : α → α)
    (hab : a ≠ b) (hid : ∀ x, key x = a → key (f x) = a) :
    (l.map (fun x => if key x == a then f x else x)).find? (fun x => key x == b)
      = l.find? (fun x => key x == b) := by
  induction l with
  | nil => rfl
  | cons x xs ih =>
    simp only [List.map_cons, List.find?]
    by_cases hxa : key x = a
    · rw [if_pos (by simpa using hxa)]
      have h1 : (key (f x) == b) = false := by
        simp [hid x hxa, hab]
      have h2 : (key x == b) = false := by
        simp [hxa, hab]
      rw [h1, h2]
      exact ih
    · rw [if_neg (by simpa using hxa)]
      cases hxb : (key x == b) with
      | true => rfl
      | false => exact ih

/-- Sum of amounts of a cons. -/
theorem sumAmounts_cons (c : Commission) (l : List Commission) :
    sumAmounts (c :: l) = c.amount + sumAmounts l := by
  simp [sumAmounts]

/-- Sum of amounts of the empty list. -/
theorem sumAmounts_nil : sumAmounts [] = 0 := by
  simp [sumAmounts]

/-- The greedy selection of `processManualPayout` takes a prefix of the
pending list, keeps the selected total within the requested amount
(for a nonnegative request), and stops exactly at the first commission
whose inclusion would overshoot. -/
theorem greedySelect_spec (l : List Commission) (r : ℚ) (hr : 0 ≤ r) :
    ∃ k, k ≤ l.length ∧ greedySelect l r = l.take k ∧
      sumAmounts (l.take k) ≤ r ∧
      (k < l.length → r < sumAmounts (l.take (k + 1))) := by
  induction l generalizing r with
  | nil =>
    refine ⟨0, by simp, rfl, by simpa [sumAmounts] using hr, by simp⟩
  | cons c rest ih =>
    by_cases hc : c.amount ≤ r
    · obtain ⟨k, hk, hg, hsum, hov⟩ := ih (r - c.amount) (by linarith)
      refine ⟨k + 1, by simpa using hk, ?_, ?_, ?_⟩
      · simp only [greedySelect, if_pos hc, List.take_succ_cons, hg]
      · rw [List.take_succ_cons, sumAmounts_cons]
        linarith
      · intro hlt
        have hlt' : k < rest.length := by simpa using hlt
        have := hov hlt'
        rw [List.take_succ_cons, sumAmounts_cons]
        linarith
    · refine ⟨0, by simp, ?_, by simpa [sumAmounts] using hr, ?_⟩
      · simp only [greedySelect, if_neg hc]
        rfl
      · intro _
        rw [List.take_succ_cons, List.take_zero, sumAmounts_cons, sumAmounts_nil]
        linarith [not_le.mp hc]

/-! Claim theorems. -/

/-- Claim C1: the claim says a genuinely new successful payment event for
a purchaser whose `referredBy` is a role-`agent` user yields exactly one
pending Commission.  The code disagrees: `handleWebhook` contains two
commission-creation blocks and for an active agent both fire, so the
single fresh event on `dbC1` persists TWO pending Commission records for
the one new payment (id 10). -/
theorem webhook_creates_two_commissions :
    ((handleWebhookSucceeded dbC1 "tx_1" 10000 2 100).1.commissions.map
      (fun c => (c.payment, c.status))) = [(some 10, "pending"), (some 10, "pending")] ∧
    (handleWebhookSucceeded dbC1 "tx_1" 10000 2 100).2.success = true := by
  with_unfolding_all decide

/-- Claim C2 (counterexample): redelivering `tx_1` through the
manual-confirmation path makes no state change but reports an ERROR
("Payment already processed", success = false), not success as the claim
states. -/
theorem manual_confirm_duplicate_reports_error :
    (manualPaymentConfirm dbC2 "succeeded" "tx_1" 10000 2 100).2.success = false ∧
    (manualPaymentConfirm dbC2 "succeeded" "tx_1" 10000 2 100).1 = dbC2 := by
  with_unfolding_all decide

/-- Claim C3: the claim says only pending commissions among the given ids
are transitioned, with the pending filter part of the atomic update.  The
code disagrees: the `updateMany` of `processBulkPayout` filters on `_id`
only, so the CANCELLED commission 2 is also set to `paid` (while
`totalAmount` counts only the pending one). -/
theorem bulk_payout_transitions_cancelled_commission :
    ((processBulkPayout dbC3 [1, 2] "manual" "batch").2.total = some 10) ∧
    ((processBulkPayout dbC3 [1, 2] "manual" "batch").1.commissions.map
      (fun c => (c.id, c.status))) = [(1, "paid"), (2, "paid")] := by
  with_unfolding_all decide

/-- Claim C4 (counterexample): the agent-driven `requestPayout` endpoint
itself marks the pending commission `paid` — contradicting the claim that
an agent-driven payout request modifies no commission status. -/
theorem request_payout_marks_commission_paid :
    ((requestPayout dbC4 1 10 "bank_transfer").2.success = true) ∧
    ((requestPayout dbC4 1 10 "bank_transfer").1.commissions.map
      (fun c => (c.id, c.status))) = [(5, "paid")] := by
  with_unfolding_all decide

/-- Claim C5: the claim says `paid` is terminal.  The code disagrees:
`updateCommissionStatus` applies the requested status unconditionally, so
the already-paid commission 7 is moved back to `pending`. -/
theorem paid_commission_reverted_to_pending :
    ((updateCommissionStatus dbC5 7 "pending" none none).2.success = true) ∧
    ((updateCommissionStatus dbC5 7 "pending" none none).1.commissions.map
      Commission.status) = ["pending"] := by
  with_unfolding_all decide

/-- Claim C6 (counterexample): a successful manual payout with requested
amount -1 (accepted by the validation, which only rejects amount 0 and
amounts above the pending total) disburses 0, and 0 is NOT less than or
equal to the requested amount, refuting the conservation claim as
stated. -/
theorem manual_payout_negative_amount :
    ((processManualPayout dbC6 1 (-1) "manual" "n").2.success = true) ∧
    ((processManualPayout dbC6 1 (-1) "manual" "n").1.payouts.map
      (fun p => (p.amount, p.totalCommissionsPaid, p.commissionIds)))
      = [((0 : ℚ), (0 : ℚ), ([] : List Nat))] ∧
    ¬ ((0 : ℚ) ≤ -1) := by
  with_unfolding_all decide

/-- Claim C8 (counterexample): the referring agent is an active
role-`agent` user with commission rate R = 0, yet not every Commission
created for the payment has amount `payment.amount * R / 100 = 0` — the
second creation block replaces the falsy rate 0 by the default 10 and
produces a commission of 10 on a 100 payment. -/
theorem zero_rate_agent_gets_default_commission :
    ¬ (∀ c ∈ (handleWebhookSucceeded dbC8 "tx_2" 10000 2 100).1.commissions,
        c.amount = (10000 / 100 : ℚ) * agentZeroRate.commissionRate / 100 ∧
        c.status = "pending") ∧
    ((handleWebhookSucceeded dbC8 "tx_2" 10000 2 100).1.commissions.map
      Commission.amount) = [0, 10] := by
  with_unfolding_all decide

/-- Claim C2 (amended): for any store already holding a Payment with the
delivered transaction id (and resolvable user and course), redelivery is
a no-op on the state through BOTH paths; the webhook path reports
success, while the manual-confirmation path reports the "Payment already
processed" error.  In particular processing the same event twice yields
the same state as processing it once. -/
theorem duplicate_delivery_is_noop
    (db : DB) (tx : String) (amountCents : ℚ) (uid cid : Nat) (user : User)
    (hu : findUser db.users uid = some user)
    (hc : cid ∈ db.courses)
    (hp : (findPaymentByTx db.payments tx).isSome = true) :
    handleWebhookSucceeded db tx amountCents uid cid = (db, okResp "received") ∧
    manualPaymentConfirm db "succeeded" tx amountCents uid cid =
      (db, errResp 400 "Payment already processed") := by
  constructor
  · unfold handleWebhookSucceeded
    rw [hu]
    simp [hc, hp]
  · unfold manualPaymentConfirm
    rw [if_pos rfl, hu]
    simp [hc, hp]

/-- Claim C2 witness: the general no-op theorem applied to the concrete
post-processing store `dbC2`. -/
theorem duplicate_delivery_is_noop_witness :
    handleWebhookSucceeded dbC2 "tx_1" 10000 2 100 = (dbC2, okResp "received") ∧
    manualPaymentConfirm dbC2 "succeeded" "tx_1" 10000 2 100 =
      (dbC2, errResp 400 "Payment already processed") :=
  duplicate_delivery_is_noop dbC2 "tx_1" 10000 2 100
    { userB with coursesEnrolled := [100], coursesPurchased := [100] }
    (by with_unfolding_all decide) (by decide) (by decide)

/-- Claim C4 (amended): the `createPayoutRequest` flow modifies no
Commission (nor any user, payment or payout document): it only validates
and, on success, appends exactly one `PayoutRequest` record with status
`pending`.  (The separate `requestPayout` endpoint does NOT satisfy the
original claim: it immediately marks pending commissions paid, as the
counterexample shows.) -/
theorem create_payout_request_frame
    (db : DB) (agentId : Nat) (amount : ℚ) (commissionIds : List Nat) :
    ((createPayoutRequest db agentId amount commissionIds).1.commissions = db.commissions ∧
     (createPayoutRequest db agentId amount commissionIds).1.users = db.users ∧
     (createPayoutRequest db agentId amount commissionIds).1.payments = db.payments ∧
     (createPayoutRequest db agentId amount commissionIds).1.payouts = db.payouts) ∧
    ((createPayoutRequest db agentId amount commissionIds).2.success = true →
      (createPayoutRequest db agentId amount commissionIds).1.payoutRequests =
        db.payoutRequests ++
          [{ id := db.nextId, agent := agentId, amount := amount, status := "pending",
             commissionIds := commissionIds }]) := by
  unfold createPayoutRequest
  split
  · simp [errResp]
  · split
    · simp [errResp]
    · split
      · simp [errResp]
      · simp [okResp]

/-- Claim C4 witness: the frame property evaluated on the concrete store
`dbC4` with a valid pending commission id. -/
theorem create_payout_request_frame_witness :
    (((createPayoutRequest dbC4 1 10 [5]).1.commissions = dbC4.commissions ∧
      (createPayoutRequest dbC4 1 10 [5]).1.users = dbC4.users ∧
      (createPayoutRequest dbC4 1 10 [5]).1.payments = dbC4.payments ∧
      (createPayoutRequest dbC4 1 10 [5]).1.payouts = dbC4.payouts) ∧
     ((createPayoutRequest dbC4 1 10 [5]).2.success = true →
       (createPayoutRequest dbC4 1 10 [5]).1.payoutRequests =
         dbC4.payoutRequests ++
           [{ id := dbC4.nextId, agent := 1, amount := 10, status := "pending",
              commissionIds := [5] }])) :=
  create_payout_request_frame dbC4 1 10 [5]

/-- The mutation part of a manual payout creates one Payout whose
commission list is a prefix of the agent pending commissions, whose
`totalCommissionsPaid` and `amount` both equal the sum of that prefix,
bounded by the requested amount, and which stops exactly at the first
commission that would overshoot. -/
theorem doManualPayout_spec (db : DB) (agentId : Nat) (amount : ℚ) (pm notes : String)
    (hr : 0 ≤ amount) :
    ∃ k payout,
      (doManualPayout db agentId amount pm notes).payouts = db.payouts ++ [payout] ∧
      payout.commissionIds = ((pendingFor db.commissions agentId).take k).map Commission.id ∧
      payout.totalCommissionsPaid = sumAmounts ((pendingFor db.commissions agentId).take k) ∧
      payout.amount = payout.totalCommissionsPaid ∧
      payout.totalCommissionsPaid ≤ amount ∧
      (k < (pendingFor db.commissions agentId).length →
        amount < sumAmounts ((pendingFor db.commissions agentId).take (k + 1))) := by
  obtain ⟨k, _, hg, hsum, hov⟩ :=
    greedySelect_spec (pendingFor db.commissions agentId) amount hr
  refine ⟨k,
    { id := db.nextId, agent := agentId,
      amount := sumAmounts (greedySelect (pendingFor db.commissions agentId) amount),
      status := "completed", paymentMethod := pm, notes := notes,
      commissionIds := (greedySelect (pendingFor db.commissions agentId) amount).map
        Commission.id,
      totalCommissionsPaid :=
        sumAmounts (greedySelect (pendingFor db.commissions agentId) amount) },
    ?_, ?_, ?_, rfl, ?_, hov⟩
  · rfl
  · rw [hg]
  · rw [hg]
  · rw [hg]
    exact hsum

/-- Claim C6 (amended): for every successful manual payout with a
NONNEGATIVE requested amount, the created Payout satisfies payout
conservation — the commissions listed in `commissionIds` are a whole
prefix of the agent pending commissions, the sum of their amounts equals
`totalCommissionsPaid` and equals `Payout.amount`, that sum is at most
the requested amount, and selection stops at the first commission whose
inclusion would exceed the requested amount.  (For a negative requested
amount the bound fails, as the counterexample shows.) -/
theorem manual_payout_conservation
    (db : DB) (agentId : Nat) (amount : ℚ) (pm notes : String) :
    0 ≤ amount →
    (processManualPayout db agentId amount pm notes).2.success = true →
    ∃ k payout,
      (processManualPayout db agentId amount pm notes).1.payouts = db.payouts ++ [payout] ∧
      payout.commissionIds = ((pendingFor db.commissions agentId).take k).map Commission.id ∧
      payout.totalCommissionsPaid = sumAmounts ((pendingFor db.commissions agentId).take k) ∧
      payout.amount = payout.totalCommissionsPaid ∧
      payout.totalCommissionsPaid ≤ amount ∧
      (k < (pendingFor db.commissions agentId).length →
        amount < sumAmounts ((pendingFor db.commissions agentId).take (k + 1))) := by
  unfold processManualPayout
  split
  · intro _ hs
    simp [errResp] at hs
  · split
    · intro _ hs
      simp [errResp] at hs
    · split
      · split
        · intro _ hs
          simp [errResp] at hs
        · split
          · intro _ hs
            simp [errResp] at hs
          · split
            · intro _ hs
              simp [errResp] at hs
            · split
              · intro _ hs
                simp [errResp] at hs
              · intro hr _
                exact doManualPayout_spec db agentId amount pm notes hr
      · intro _ hs
        simp [errResp] at hs

/-- Claim C6 witness: the payout scenario of the specification — pending
commissions 10, 10, 5 and a requested amount of 25. -/
theorem manual_payout_conservation_witness :
    ∃ k payout,
      (processManualPayout dbC6w 1 25 "bank_transfer" "").1.payouts
        = dbC6w.payouts ++ [payout] ∧
      payout.commissionIds = ((pendingFor dbC6w.commissions 1).take k).map Commission.id ∧
      payout.totalCommissionsPaid = sumAmounts ((pendingFor dbC6w.commissions 1).take k) ∧
      payout.amount = payout.totalCommissionsPaid ∧
      payout.totalCommissionsPaid ≤ 25 ∧
      (k < (pendingFor dbC6w.commissions 1).length →
        25 < sumAmounts ((pendingFor dbC6w.commissions 1).take (k + 1))) :=
  manual_payout_conservation dbC6w 1 25 "bank_transfer" ""
    (by with_unfolding_all decide) (by with_unfolding_all decide)


/-- Updating the user found at key `a` (with an id-preserving update)
makes the lookup at `a` return the updated user. -/
theorem findUser_update_self (l : List User) (a : Nat) (agent : User) (f : User → User)
    (hag : findUser l a = some agent) (hid : ∀ u, (f u).id = u.id) :
    findUser (updateUser l a f) a = some (f agent) := by
  have hg : ∀ u : User, ((if u.id == a then f u else u).id == a) = (u.id == a) := by
    intro u
    by_cases h : (u.id == a) = true
    · simp only [h, if_true, hid]
    · simp only [h, if_false, Bool.false_eq_true]
  have h1 := find?_map_of_pred_invariant l (fun u => u.id == a)
    (fun u => if u.id == a then f u else u) hg
  unfold findUser updateUser at *
  have hpa := List.find?_some hag
  rw [h1, hag]
  show some (if agent.id == a then f agent else agent) = some (f agent)
  rw [if_pos hpa]

/-- A point update at key `a` leaves the lookup at a different key `b`
unchanged. -/
theorem findUser_update_ne (l : List User) (a b : Nat) (f : User → User)
    (hab : a ≠ b) (hid : ∀ u, u.id = a → (f u).id = a) :
    findUser (updateUser l a f) b = findUser l b :=
  find?_map_guard_ne User.id l a b f hab hid

/-- Replacing the commission that the by-payment lookup returned, with a
replacement carrying the same `payment` reference, makes the lookup
return the replacement (commission ids assumed unique). -/
theorem findCommissionByPayment_replace (l : List Commission) (pid : Nat)
    (comm newC : Commission) (hnd : (l.map Commission.id).Nodup)
    (hcm : findCommissionByPayment l pid = some comm)
    (hnew : newC.payment = comm.payment) :
    findCommissionByPayment (updateCommission l comm.id (fun _ => newC)) pid = some newC := by
  unfold findCommissionByPayment updateCommission at *
  have hprop := List.find?_some hcm
  have hnewp : (newC.payment == some pid) = true := by
    simp only [hnew]
    exact hprop
  exact find?_map_replace_nodup Commission.id l (fun c => c.payment == some pid)
    comm newC hnd hcm hnewp

/-- Claim C7: refunding a completed payment with a referral agent and an
attached commission cancels the commission and decrements the agent
`totalCommission` by exactly the commission amount when the commission is
still pending, and leaves both the commissions and the users untouched
when the commission is already paid.  (Commission ids are assumed unique,
as Mongo object ids are.) -/
theorem refund_cancels_pending_only
    (db : DB) (pid : Nat) (reason : String) (payment : Payment) (agentId : Nat)
    (comm : Commission) (agent : User)
    (hp : findPayment db.payments pid = some payment)
    (hst : payment.status = "completed")
    (hra : payment.referralAgent = some agentId)
    (hcm : findCommissionByPayment db.commissions pid = some comm)
    (hag : findUser db.users agentId = some agent)
    (hnd : (db.commissions.map Commission.id).Nodup) :
    (comm.status = "pending" →
      (findCommissionByPayment (processRefund db pid reason true).1.commissions pid).map
          Commission.status = some "cancelled" ∧
      (findUser (processRefund db pid reason true).1.users agentId).map User.totalCommission
        = some (agent.totalCommission - comm.amount)) ∧
    (comm.status = "paid" →
      (processRefund db pid reason true).1.commissions = db.commissions ∧
      (processRefund db pid reason true).1.users = db.users) := by
  unfold processRefund
  rw [hp]
  dsimp only
  rw [if_pos hst, if_pos rfl, hra]
  dsimp only
  rw [hcm]
  dsimp only
  constructor
  · intro hpend
    rw [if_pos hpend]
    dsimp only
    constructor
    · rw [findCommissionByPayment_replace db.commissions pid comm
        { comm with status := "cancelled",
                    payoutNotes := some ("Refunded: " ++ reason) } hnd hcm rfl]
      rfl
    · rw [findUser_update_self db.users agentId agent
        (fun a => { a with totalCommission := a.totalCommission - comm.amount }) hag
        (fun _ => rfl)]
      rfl
  · intro hpaid
    have hne : ¬ comm.status = "pending" := by
      rw [hpaid]
      decide
    rw [if_neg hne]
    exact ⟨rfl, rfl⟩

/-- Claim C7 witness: the refund scenario evaluated on `dbC7` (pending
commission of 10 attached to completed payment 4). -/
theorem refund_cancels_pending_only_witness :
    (commC7.status = "pending" →
      (findCommissionByPayment (processRefund dbC7 4 "course unused" true).1.commissions 4).map
          Commission.status = some "cancelled" ∧
      (findUser (processRefund dbC7 4 "course unused" true).1.users 1).map User.totalCommission
        = some ({ agentA with totalCommission := 10 }.totalCommission - commC7.amount)) ∧
    (commC7.status = "paid" →
      (processRefund dbC7 4 "course unused" true).1.commissions = dbC7.commissions ∧
      (processRefund dbC7 4 "course unused" true).1.users = dbC7.users) :=
  refund_cancels_pending_only dbC7 4 "course unused" paymentC7 1 commC7
    { agentA with totalCommission := 10 }
    (by with_unfolding_all decide) (by with_unfolding_all decide)
    (by with_unfolding_all decide) (by with_unfolding_all decide)
    (by with_unfolding_all decide) (by with_unfolding_all decide)

/-- Claim C9: `processRefund` on a payment whose status is not
`completed` fails with the invalid-state error and no state change; and
whenever the external provider refund call fails, the whole operation
aborts with the store untouched (the provider call precedes every
mutation). -/
theorem refund_error_handling
    (db : DB) (pid : Nat) (reason : String) (payment : Payment) (pok : Bool) :
    (findPayment db.payments pid = some payment →
      payment.status ≠ "completed" →
      processRefund db pid reason pok = (db, errResp 400 "Payment is not completed")) ∧
    ((processRefund db pid reason false).1 = db) := by
  constructor
  · intro hp hst
    unfold processRefund
    rw [hp]
    dsimp only
    rw [if_neg hst]
  · unfold processRefund
    split
    · rfl
    · split
      · rfl
      · rfl

/-- Claim C9 witness: the error-handling theorem evaluated on `dbC9`,
whose payment 4 is still `pending`. -/
theorem refund_error_handling_witness :
    (findPayment dbC9.payments 4 = some
        { id := 4, userId := 2, courseId := 100, amount := 100,
          transactionId := "tx_9", status := "pending", referralAgent := none,
          commissionAmount := none, commissionStatus := "pending",
          refundReason := none } →
      ({ id := 4, userId := 2, courseId := 100, amount := 100,
         transactionId := "tx_9", status := "pending", referralAgent := none,
         commissionAmount := none, commissionStatus := "pending",
         refundReason := none } : Payment).status ≠ "completed" →
      processRefund dbC9 4 "requested" true
        = (dbC9, errResp 400 "Payment is not completed")) ∧
    ((processRefund dbC9 4 "requested" false).1 = dbC9) :=
  refund_error_handling dbC9 4 "requested"
    { id := 4, userId := 2, courseId := 100, amount := 100,
      transactionId := "tx_9", status := "pending", referralAgent := none,
      commissionAmount := none, commissionStatus := "pending",
      refundReason := none } true

/-- Claim C10: a successful `processBankTransfer` marks ALL of the agent
pending commissions paid (the requested amount only gates the
precondition, it does not limit the update), appends a Commission record
of type `payout` with status `paid` and the requested amount to the
Commission collection, and creates no `Payout` document. -/
theorem bank_transfer_pays_all_pending
    (db : DB) (agentId : Nat) (amount : ℚ) (notes transferReference : String) :
    (processBankTransfer db agentId amount notes transferReference).2.success = true →
    ((∀ c ∈ db.commissions, c.agent = agentId → c.status = "pending" →
        ∃ c' ∈ (processBankTransfer db agentId amount notes transferReference).1.commissions,
          c'.id = c.id ∧ c'.status = "paid") ∧
     (∃ pc ∈ (processBankTransfer db agentId amount notes transferReference).1.commissions,
        pc.ctype = "payout" ∧ pc.status = "paid" ∧ pc.amount = amount ∧ pc.agent = agentId) ∧
     (processBankTransfer db agentId amount notes transferReference).1.payouts
       = db.payouts) := by
  unfold processBankTransfer
  repeat' split
  any_goals (intro hs; simp [errResp] at hs)
  dsimp only
  refine ⟨?_, ?_, rfl⟩
  · intro c hc hca hcs
    have hmem : c ∈ pendingFor db.commissions agentId := by
      unfold pendingFor
      rw [List.mem_filter]
      refine ⟨hc, ?_⟩
      simp [hca, hcs]
    have hidmem : c.id ∈ (pendingFor db.commissions agentId).map Commission.id :=
      List.mem_map_of_mem Commission.id hmem
    have hid :
        ((pendingFor db.commissions agentId).map Commission.id).contains c.id = true := by
      simpa using hidmem
    refine ⟨{ c with
              status := "paid",
              payoutMethod := some "bank_transfer",
              adminNotes := some notes,
              transferReference := some transferReference }, ?_, rfl, rfl⟩
    apply List.mem_append_left
    have hmm := List.mem_map_of_mem
      (fun c : Commission =>
        if ((pendingFor db.commissions agentId).map Commission.id).contains c.id
        then { c with
               status := "paid",
               payoutMethod := some "bank_transfer",
               adminNotes := some notes,
               transferReference := some transferReference }
        else c) hc
    simp only [hid, if_true] at hmm
    exact hmm
  · refine ⟨_, List.mem_append_right _ (List.mem_singleton_self _), rfl, rfl, rfl, rfl⟩

/-- Claim C10 witness: the bank-transfer theorem evaluated on `dbC10`
(pending commissions 10 and 5, requested amount 12). -/
theorem bank_transfer_pays_all_pending_witness :
    ((∀ c ∈ dbC10.commissions, c.agent = 1 → c.status = "pending" →
        ∃ c' ∈ (processBankTransfer dbC10 1 12 "n" "r").1.commissions,
          c'.id = c.id ∧ c'.status = "paid") ∧
     (∃ pc ∈ (processBankTransfer dbC10 1 12 "n" "r").1.commissions,
        pc.ctype = "payout" ∧ pc.status = "paid" ∧ pc.amount = 12 ∧ pc.agent = 1) ∧
     (processBankTransfer dbC10 1 12 "n" "r").1.payouts = dbC10.payouts) :=
  bank_transfer_pays_all_pending dbC10 1 12 "n" "r" (by with_unfolding_all decide)

/-- `enroll` does not change the user id. -/
theorem enroll_id (user : User) (cid : Nat) : (enroll user cid).id = user.id := by
  unfold enroll
  dsimp only
  split <;> split <;> rfl

/-- Claim C8 (amended): for a genuinely new successful payment event
whose purchaser is referred by an ACTIVE role-`agent` user with a
NONZERO commission rate R, both Commission records created for the
payment carry amount `payment.amount * R / 100` (with
`payment.amount = amountCents / 100`) and start in status `pending`.
(For R = 0 the second creation block falls back to the default rate 10,
as the counterexample shows.) -/
theorem commission_amount_correct
    (db : DB) (tx : String) (amountCents : ℚ) (uid cid agentId : Nat) (user agent : User)
    (hu : findUser db.users uid = some user)
    (hub : user.referredBy = some agentId)
    (hc : cid ∈ db.courses)
    (hfresh : (findPaymentByTx db.payments tx).isSome = false)
    (henr : cid ∉ user.coursesEnrolled)
    (hag : findUser db.users agentId = some agent)
    (hrole : agent.role = "agent")
    (hact : agent.isActiveAgent = true)
    (hne : uid ≠ agentId)
    (hR : agent.commissionRate ≠ 0) :
    ∃ c1 c2,
      (handleWebhookSucceeded db tx amountCents uid cid).1.commissions
        = db.commissions ++ [c1, c2] ∧
      c1.amount = (amountCents / 100) * agent.commissionRate / 100 ∧
      c1.status = "pending" ∧
      c2.amount = (amountCents / 100) * agent.commissionRate / 100 ∧
      c2.status = "pending" := by
  have huid : user.id = uid := by
    have hu' := hu
    unfold findUser at hu'
    have := List.find?_some hu'
    simpa using this
  unfold handleWebhookSucceeded
  rw [hu]
  dsimp only
  rw [if_pos hc, hfresh]
  rw [if_neg Bool.false_ne_true]
  rw [if_neg henr]
  unfold createCommissionBlock
  rw [hub]
  dsimp only
  rw [hag]
  dsimp only
  rw [if_pos hrole]
  unfold referrerStatsBlock
  rw [hub]
  dsimp only
  rw [findUser_update_ne _ uid agentId _ hne
    (fun u _ => by rw [enroll_id, huid])]
  rw [hag]
  dsimp only
  rw [if_pos ⟨hrole, hact⟩]
  rw [if_neg hR]
  dsimp only
  refine ⟨⟨db.nextId + 1, agentId, some uid, some db.nextId,
           amountCents / 100 * agent.commissionRate / 100, "pending",
           agent.commissionRate / 100, some (amountCents / 100), "commission",
           none, none, none, none, none⟩,
          ⟨db.nextId + 1 + 1, agentId, some uid, some db.nextId,
           amountCents / 100 * (agent.commissionRate / 100), "pending",
           1 / 10, some (amountCents / 100), "commission",
           none, none, none, none, none⟩,
          ?_, rfl, rfl, ?_, rfl⟩
  · rw [List.append_assoc]
    rfl
  · exact (mul_div_assoc _ _ _).symm

/-- Claim C8 witness: the amended commission-correctness theorem applied
to the fresh store `dbC1` (agent rate 10, payment of 100). -/
theorem commission_amount_correct_witness :
    ∃ c1 c2,
      (handleWebhookSucceeded dbC1 "tx_1" 10000 2 100).1.commissions
        = dbC1.commissions ++ [c1, c2] ∧
      c1.amount = ((10000 : ℚ) / 100) * agentA.commissionRate / 100 ∧
      c1.status = "pending" ∧
      c2.amount = ((10000 : ℚ) / 100) * agentA.commissionRate / 100 ∧
      c2.status = "pending" :=
  commission_amount_correct dbC1 "tx_1" 10000 2 100 1 userB agentA
    (by with_unfolding_all decide) (by with_unfolding_all decide)
    (by with_unfolding_all decide) (by with_unfolding_all decide)
    (by with_unfolding_all decide) (by with_unfolding_all decide)
    (by with_unfolding_all decide) (by with_unfolding_all decide)
    (by with_unfolding_all decide) (by with_unfolding_all decide)
